import Mathlib

/-! Rach VST3 host: the native module's scanner, processor and instance table.

A shallow embedding of `electron/native/vst3-scanner.cc`,
`electron/native/vst3-processor.cc` and `electron/native/vst3-host.cc`.

* Strings are Lean strings; `std::filesystem::path` decomposition is done on
  their character lists, with the directory separators and root names of the
  platform the module is built for.
* `fs::exists` and the directory traversal can both end in a
  `fs::filesystem_error`; the filesystem is a pair of functions giving their
  outcomes.
* `double` and `float` values are only stored and handed back by this code,
  never computed with, so they are carried as rationals.
* `nextPluginId` is a C++ `int`: an integer kept inside 32 bits by an explicit
  two's-complement wrap.
* The two build flavours (`HAS_VST3_SDK` defined or not) are selected by a
  boolean argument `sdk`.
-/

namespace Rach

/-! ## `std::filesystem::path` decomposition -/

/-- Which of the platform macros `__linux__`, `__APPLE__`, `_WIN32` is
defined, if any. -/
inductive Platform where
  | linux
  | apple
  | win32
  | other
deriving DecidableEq, Repr

/-- Whether a character is a directory separator: the slash, and on Windows
the backslash as well. -/
def isSeparator (platform : Platform) (c : Char) : Bool :=
  c = '/' || (platform = Platform.win32 && c = '\\')

/-- The length of the root name a path starts with. Only Windows paths have
one: a drive (`C:`), or a network name (two separators followed by a name,
up to the next separator). -/
def rootNameLength (platform : Platform) (p : List Char) : Nat :=
  if platform = Platform.win32 then
    match p with
    | a :: b :: rest =>
      if a.isAlpha && b = ':' then 2
      else if isSeparator platform a && isSeparator platform b then
        match rest with
        | [] => 0
        | c :: _ =>
          if isSeparator platform c then 0
          else 2 + (rest.takeWhile (fun x => !isSeparator platform x)).length
      else 0
    | _ => 0
  else 0

/-- The characters after the root name and the last directory separator:
`path::filename()`. -/
def filenameChars (platform : Platform) (p : List Char) : List Char :=
  (((p.drop (rootNameLength platform p)).reverse).takeWhile
    (fun c => !isSeparator platform c)).reverse

/-- Split a filename at its rightmost period, the way `path::stem()` and
`path::extension()` do: the special names `.` and `..`, a name without a
period, and a name whose only period is its first character have an empty
extension. The result is `(stem, extension)`. -/
def splitExtension (f : List Char) : List Char × List Char :=
  if f = ['.'] ∨ f = ['.', '.'] then (f, [])
  else
    let r := f.reverse
    match r.dropWhile (fun c => c != '.') with
    | [] => (f, [])
    | _ :: stemRev =>
      if stemRev = [] then (f, [])
      else (stemRev.reverse, '.' :: (r.takeWhile (fun c => c != '.')).reverse)

/-- The result of `fs::path(p).extension().string()`. -/
def extension (platform : Platform) (p : String) : String :=
  String.mk (splitExtension (filenameChars platform p.toList)).2

/-- The result of `fs::path(p).stem().string()`. -/
def stem (platform : Platform) (p : String) : String :=
  String.mk (splitExtension (filenameChars platform p.toList)).1

/-! ## The filesystem seen by the scanner -/

/-- The outcome of a call that may end in a `fs::filesystem_error`. -/
inductive Outcome (α : Type) where
  | returned : α → Outcome α
  | filesystem_error : Outcome α
deriving DecidableEq, Repr

/-- What one `fs::recursive_directory_iterator(searchPath)` loop sees: the
entry paths it yields, in the order it yields them, and whether the traversal
then stops with a `fs::filesystem_error` (the search path is not a directory,
or a directory under it cannot be opened) instead of reaching its end. -/
structure Traversal where
  entries : List String
  throws : Bool
deriving DecidableEq, Repr

/-- The two filesystem primitives the code uses. `pathExists p` is the outcome
of `fs::exists(p)`: `true`, `false` when the path is not found, or the
`fs::filesystem_error` of the throwing overload when the status of `p` cannot
be read for another reason (a parent that may not be searched, a symlink
loop, a name that is too long). `walk p` is the traversal started at `p`. -/
structure FileSystem where
  pathExists : String → Outcome Bool
  walk : String → Traversal

/-- Plugin info structure (`struct PluginInfo`). -/
structure PluginInfo where
  path : String
  name : String
  vendor : String
  uid : String
  isInstrument : Bool
  isEffect : Bool
deriving DecidableEq, Repr

/-- The body of the `if (entry.path().extension() == ".vst3")` statement: the
descriptor pushed for one matching entry. -/
def makeInfo (platform : Platform) (entry : String) : PluginInfo :=
  { path := entry
    name := stem platform entry
    vendor := "Unknown"
    uid := entry
    isInstrument := false
    isEffect := true }

/-- The inner `for (const auto& entry : ...)` loop over the entries the
traversal yields: a matching entry is pushed onto `plugins`. -/
def scanEntries (platform : Platform) (plugins : List PluginInfo) :
    List String → List PluginInfo
  | [] => plugins
  | entry :: rest =>
    if extension platform entry = ".vst3" then
      scanEntries platform (plugins ++ [makeInfo platform entry]) rest
    else scanEntries platform plugins rest

namespace VST3Scanner

/-- The outer loop of `VST3Scanner::scan`, with `plugins` the vector built so
far. The `fs::exists` test stands before the `try`: when it throws, the
exception leaves `scan`. A missing search path is skipped; a traversal that
throws is caught, and the loop continues with the next search path, keeping
what was pushed. -/
def scanLoop (platform : Platform) (fs : FileSystem) (plugins : List PluginInfo) :
    List String → Outcome (List PluginInfo)
  | [] => Outcome.returned plugins
  | searchPath :: rest =>
    match fs.pathExists searchPath with
    | Outcome.filesystem_error => Outcome.filesystem_error
    | Outcome.returned false => scanLoop platform fs plugins rest
    | Outcome.returned true =>
      let t := fs.walk searchPath
      let plugins := scanEntries platform plugins t.entries
      if t.throws then scanLoop platform fs plugins rest
      else scanLoop platform fs plugins rest

/-- `VST3Scanner::scan(searchPaths)`: the descriptors returned, or the
exception that leaves the function. -/
def scan (platform : Platform) (fs : FileSystem) (searchPaths : List String) :
    Outcome (List PluginInfo) :=
  scanLoop platform fs [] searchPaths

end VST3Scanner

/-- The stub loop of `ScanPlugins` (the `#else` branch), with `plugins` the
contents of `scannedPlugins` so far. There is no handler here: an `fs::exists`
that throws and a traversal that throws both end the loop with the exception.
The result is the contents of `scannedPlugins` when the loop is left, and
whether it is left by the exception. -/
def stubScanLoop (platform : Platform) (fs : FileSystem) (plugins : List PluginInfo) :
    List String → List PluginInfo × Bool
  | [] => (plugins, false)
  | searchPath :: rest =>
    match fs.pathExists searchPath with
    | Outcome.filesystem_error => (plugins, true)
    | Outcome.returned false => stubScanLoop platform fs plugins rest
    | Outcome.returned true =>
      let t := fs.walk searchPath
      let plugins := scanEntries platform plugins t.entries
      if t.throws then (plugins, true)
      else stubScanLoop platform fs plugins rest

/-! ## The processor (`vst3-processor.cc`, compiled with the SDK) -/

/-- Modelled from the spec: `struct ParameterInfo` is declared in
`vst3-processor.h`, which is not among the sources. The specification lists
an id, a display name and a current value; these are the fields
`GetParameters` reads (`params[i].id`, `.name`, `.value`). -/
structure ParameterInfo where
  id : Nat
  name : String
  value : Rat
deriving DecidableEq, Repr

/-- Modelled from the spec: `class VST3Processor` is declared in
`vst3-processor.h`, which is not among the sources. The members here are the
ones the member functions in `vst3-processor.cc` assign. -/
structure VST3Processor where
  pluginPath : String
  loaded : Bool
  sampleRate : Rat
  blockSize : Int
deriving DecidableEq, Repr

namespace VST3Processor

/-- Modelled from the spec: the constructor `VST3Processor::VST3Processor() {}`
assigns nothing, so a new processor holds the initial values of the class
declaration in `vst3-processor.h`, which is not among the sources. The
specification starts an adapter in the `unloaded` state, so `loaded` starts
clear. `load` and `initialize` overwrite every member before `LoadPlugin`
registers the processor. -/
def ctor : VST3Processor :=
  { pluginPath := "", loaded := false, sampleRate := 0, blockSize := 0 }

/-- `VST3Processor::load(path)`: records the path, sets `loaded`, returns
`true`. -/
def load (p : VST3Processor) (path : String) : VST3Processor × Bool :=
  ({ p with pluginPath := path, loaded := true }, true)

/-- `VST3Processor::unload()`. -/
def unload (p : VST3Processor) : VST3Processor :=
  { p with loaded := false }

/-- `VST3Processor::initialize(sampleRate, blockSize)`: records both, returns
`true`. -/
def initializeProcessor (p : VST3Processor) (sampleRate : Rat) (blockSize : Int) :
    VST3Processor × Bool :=
  ({ p with sampleRate := sampleRate, blockSize := blockSize }, true)

/-- `VST3Processor::getParameters()`: `return {};`. -/
def getParameters (_p : VST3Processor) : List ParameterInfo := []

/-- `VST3Processor::setParameter(id, value)`: an empty body. -/
def setParameter (p : VST3Processor) (_id : Nat) (_value : Rat) : VST3Processor := p

/-- `VST3Processor::process(buffer, length)`: returns at once when not
loaded, and otherwise falls through an empty body. The result is the
processor and the buffer contents after the call. -/
def process (p : VST3Processor) (buffer : List Rat) : VST3Processor × List Rat :=
  if !p.loaded then (p, buffer)
  else (p, buffer)

/-- `VST3Processor::getState()`: `return "";`. -/
def getState (_p : VST3Processor) : String := ""

/-- `VST3Processor::setState(state)`: an empty body. -/
def setState (p : VST3Processor) (_state : String) : VST3Processor := p

end VST3Processor

/-! ## The host (`vst3-host.cc`) -/

/-- Loaded plugin state (`struct LoadedPlugin`); the processor member exists
only in the SDK build. -/
structure LoadedPlugin where
  uid : String
  path : String
  name : String
  parameters : List (String × Rat)
  processor : Option VST3Processor
deriving DecidableEq, Repr

/-- The table `std::map<std::string, std::unique_ptr<LoadedPlugin>>` of loaded
plugins, as an association list. The code only finds, erases and assigns by
key and never iterates, so the key order of the map is not represented. -/
abbrev PluginMap := List (String × LoadedPlugin)

namespace PluginMap

/-- `loadedPlugins.find(id)`: the mapped instance, or `none` for `end()`. -/
def find (m : PluginMap) (id : String) : Option LoadedPlugin :=
  match m with
  | [] => none
  | (k, v) :: rest => if k = id then some v else find rest id

/-- `loadedPlugins.erase(id)`. -/
def erase (m : PluginMap) (id : String) : PluginMap :=
  match m with
  | [] => []
  | (k, v) :: rest => if k = id then erase rest id else (k, v) :: erase rest id

/-- `loadedPlugins[id] = std::move(plugin)`: the mapped value is replaced
when the key is present, and inserted otherwise. -/
def assign (m : PluginMap) (id : String) (plugin : LoadedPlugin) : PluginMap :=
  match m with
  | [] => [(id, plugin)]
  | (k, v) :: rest =>
    if k = id then (k, plugin) :: rest else (k, v) :: assign rest id plugin

/-- The keys of the table. -/
def keys (m : PluginMap) : List String := m.map Prod.fst

end PluginMap

/-- The global state of the module. -/
structure HostState where
  scannedPlugins : List PluginInfo
  loadedPlugins : PluginMap
  nextPluginId : Int
deriving DecidableEq, Repr

/-- The values of the globals when the module is loaded. -/
def HostState.init : HostState :=
  { scannedPlugins := [], loadedPlugins := [], nextPluginId := 1 }

/-- A C++ `int` result: the integer brought back into the 32-bit
two's-complement range. -/
def wrapInt32 (z : Int) : Int := (z + 2 ^ 31) % 2 ^ 32 - 2 ^ 31

/-- The result of `std::to_string` on an `int`: decimal digits, with a
leading minus sign for a negative value. -/
def to_string (z : Int) : String :=
  match z with
  | Int.ofNat n => Nat.repr n
  | Int.negSucc n => "-" ++ Nat.repr (n + 1)

/-- A JavaScript exception thrown by the module. -/
inductive JsException where
  | TypeError (message : String)
  | Error (message : String)
deriving DecidableEq, Repr

/-- One element of the array `GetParameters` returns. -/
structure ParameterObject where
  id : Nat
  name : String
  value : Rat
  min : Rat
  max : Rat
deriving DecidableEq, Repr

/-- The build and the surroundings the module runs in: whether
`HAS_VST3_SDK` is defined, the platform, the value of `getenv("HOME")`, and
the filesystem. -/
structure Env where
  sdk : Bool
  platform : Platform
  home : Option String
  fs : FileSystem

/-- The "standard VST3 search paths" `ScanPlugins` builds. -/
def standardSearchPaths (platform : Platform) (home : Option String) : List String :=
  match platform with
  | Platform.linux => [home.getD "" ++ "/.vst3", "/usr/lib/vst3", "/usr/local/lib/vst3"]
  | Platform.apple =>
    ["/Library/Audio/Plug-Ins/VST3", home.getD "" ++ "/Library/Audio/Plug-Ins/VST3"]
  | Platform.win32 =>
    ["C:\\Program Files\\Common Files\\VST3", "C:\\Program Files (x86)\\Common Files\\VST3"]
  | Platform.other => []

/-- `ScanPlugins`: clears `scannedPlugins`, scans the standard search paths
and returns the descriptors as an array. With the SDK the global is assigned
the result of `VST3Scanner::scan`, so an exception leaves it cleared. In the
stub build the descriptors are pushed onto the global as they are found, so
an exception leaves the ones found so far in it. -/
def ScanPlugins (env : Env) (s : HostState) : HostState × Outcome (List PluginInfo) :=
  let searchPaths := standardSearchPaths env.platform env.home
  if env.sdk then
    match VST3Scanner.scan env.platform env.fs searchPaths with
    | Outcome.returned plugins =>
      ({ s with scannedPlugins := plugins }, Outcome.returned plugins)
    | Outcome.filesystem_error => ({ s with scannedPlugins := [] }, Outcome.filesystem_error)
  else
    let r := stubScanLoop env.platform env.fs [] searchPaths
    ({ s with scannedPlugins := r.1 },
      if r.2 then Outcome.filesystem_error else Outcome.returned r.1)

/-- `LoadPlugin`: `arg` is the first argument when it is a string, and `none`
when it is missing or not a string. -/
def LoadPlugin (sdk : Bool) (platform : Platform) (s : HostState) (arg : Option String) :
    HostState × Except JsException String :=
  match arg with
  | none => (s, Except.error (JsException.TypeError "Plugin path (string) required"))
  | some path =>
    let instanceId := "vst3-" ++ to_string s.nextPluginId
    let s := { s with nextPluginId := wrapInt32 (s.nextPluginId + 1) }
    let plugin : LoadedPlugin :=
      { uid := instanceId, path := path, name := stem platform path, parameters := [],
        processor := none }
    if sdk then
      let loadResult := VST3Processor.load VST3Processor.ctor path
      if !loadResult.2 then
        (s, Except.error (JsException.Error ("Failed to load plugin: " ++ path)))
      else
        let processor := (loadResult.1.initializeProcessor 44100 512).1
        let plugin := { plugin with processor := some processor }
        ({ s with loadedPlugins := s.loadedPlugins.assign instanceId plugin },
          Except.ok instanceId)
    else
      ({ s with loadedPlugins := s.loadedPlugins.assign instanceId plugin },
        Except.ok instanceId)

/-- `UnloadPlugin`. -/
def UnloadPlugin (s : HostState) (id : String) : HostState :=
  { s with loadedPlugins := s.loadedPlugins.erase id }

/-- The array element built from one `ParameterInfo`. -/
def toParameterObject (p : ParameterInfo) : ParameterObject :=
  { id := p.id, name := p.name, value := p.value, min := 0, max := 1 }

/-- `GetParameters`: the array returned. Without the SDK the array of a found
plugin is left empty; with it, the array is built from the processor's
parameters (a registered plugin always holds a processor then). -/
def GetParameters (sdk : Bool) (s : HostState) (id : String) : List ParameterObject :=
  match s.loadedPlugins.find id with
  | none => []
  | some plugin =>
    if sdk then
      match plugin.processor with
      | some processor => processor.getParameters.map toParameterObject
      | none => []
    else []

/-- Apply a processor method to the processor of a plugin, when it has one. -/
def LoadedPlugin.withProcessor (plugin : LoadedPlugin)
    (f : VST3Processor → VST3Processor) : LoadedPlugin :=
  match plugin.processor with
  | some processor => { plugin with processor := some (f processor) }
  | none => plugin

/-- `SetParameter`. -/
def SetParameter (sdk : Bool) (s : HostState) (id : String) (paramId : Nat) (value : Rat) :
    HostState :=
  match s.loadedPlugins.find id with
  | some plugin =>
    if sdk then
      let plugin := plugin.withProcessor (fun p => p.setParameter paramId value)
      { s with loadedPlugins := s.loadedPlugins.assign id plugin }
    else s
  | none => s

/-- `ProcessAudio`: the state after the call and the buffer returned. -/
def ProcessAudio (sdk : Bool) (s : HostState) (id : String) (buffer : List Rat) :
    HostState × List Rat :=
  match s.loadedPlugins.find id with
  | some plugin =>
    if sdk then
      match plugin.processor with
      | some processor =>
        let r := processor.process buffer
        let plugin := { plugin with processor := some r.1 }
        ({ s with loadedPlugins := s.loadedPlugins.assign id plugin }, r.2)
      | none => (s, buffer)
    else (s, buffer)
  | none => (s, buffer)

/-- `GetState`. -/
def GetState (sdk : Bool) (s : HostState) (id : String) : String :=
  match s.loadedPlugins.find id with
  | none => ""
  | some plugin =>
    if sdk then
      match plugin.processor with
      | some processor => processor.getState
      | none => ""
    else ""

/-- `SetState`. -/
def SetState (sdk : Bool) (s : HostState) (id : String) (state : String) : HostState :=
  match s.loadedPlugins.find id with
  | some plugin =>
    if sdk then
      let plugin := plugin.withProcessor (fun p => p.setState state)
      { s with loadedPlugins := s.loadedPlugins.assign id plugin }
    else s
  | none => s

/-! ## Calls and call sequences -/

/-- One call of an exported function, with well-typed arguments (for
`loadPlugin`, `none` stands for a missing or non-string first argument). -/
inductive Call where
  | scanPlugins
  | loadPlugin (arg : Option String)
  | unloadPlugin (id : String)
  | getParameters (id : String)
  | setParameter (id : String) (paramId : Nat) (value : Rat)
  | processAudio (id : String) (buffer : List Rat)
  | getState (id : String)
  | setState (id : String) (state : String)
deriving DecidableEq, Repr

/-- How a call ends: the JavaScript value it returns, a JavaScript exception
it throws, or a C++ exception that leaves it. -/
inductive Completion where
  | undefined
  | string (value : String)
  | parameters (value : List ParameterObject)
  | buffer (value : List Rat)
  | descriptors (value : List PluginInfo)
  | exception (e : JsException)
  | filesystem_error
deriving DecidableEq, Repr

/-- Run one call: the state after it and how it ends. -/
def step (env : Env) (s : HostState) : Call → HostState × Completion
  | Call.scanPlugins =>
    match ScanPlugins env s with
    | (s, Outcome.returned ds) => (s, Completion.descriptors ds)
    | (s, Outcome.filesystem_error) => (s, Completion.filesystem_error)
  | Call.loadPlugin arg =>
    match LoadPlugin env.sdk env.platform s arg with
    | (s, Except.ok handle) => (s, Completion.string handle)
    | (s, Except.error e) => (s, Completion.exception e)
  | Call.unloadPlugin id => (UnloadPlugin s id, Completion.undefined)
  | Call.getParameters id => (s, Completion.parameters (GetParameters env.sdk s id))
  | Call.setParameter id paramId value =>
    (SetParameter env.sdk s id paramId value, Completion.undefined)
  | Call.processAudio id buffer =>
    match ProcessAudio env.sdk s id buffer with
    | (s, out) => (s, Completion.buffer out)
  | Call.getState id => (s, Completion.string (GetState env.sdk s id))
  | Call.setState id state => (SetState env.sdk s id state, Completion.undefined)

/-- The state after a sequence of calls. -/
def run (env : Env) (s : HostState) : List Call → HostState
  | [] => s
  | c :: rest => run env (step env s c).1 rest

/-- The handles the `loadPlugin` calls of a sequence return, in order. -/
def issued (env : Env) (s : HostState) : List Call → List String
  | [] => []
  | Call.loadPlugin arg :: rest =>
    match (LoadPlugin env.sdk env.platform s arg).2 with
    | Except.ok handle => handle :: issued env (step env s (Call.loadPlugin arg)).1 rest
    | Except.error _ => issued env (step env s (Call.loadPlugin arg)).1 rest
  | c :: rest => issued env (step env s c).1 rest

/-- The number of `loadPlugin` calls of a sequence that are given a string. -/
def loadCount : List Call → Nat
  | [] => 0
  | Call.loadPlugin (some _) :: rest => loadCount rest + 1
  | _ :: rest => loadCount rest

/-! ## Filesystems used in the examples -/

/-- A filesystem holding the directory `/plugins` with the single bundle
`Reverb.vst3` in it, and nothing else. -/
def reverbFs : FileSystem :=
  { pathExists := fun p => Outcome.returned (p = "/plugins" || p = "/plugins/Reverb.vst3")
    walk := fun p =>
      if p = "/plugins" then { entries := ["/plugins/Reverb.vst3"], throws := false }
      else { entries := [], throws := p = "/plugins/Reverb.vst3" } }

/-- A filesystem where `/plugins` holds the directory `sub`, which holds the
single bundle `Reverb.vst3`. -/
def nestedFs : FileSystem :=
  { pathExists := fun p =>
      Outcome.returned
        (p = "/plugins" || p = "/plugins/sub" || p = "/plugins/sub/Reverb.vst3")
    walk := fun p =>
      if p = "/plugins" then
        { entries := ["/plugins/sub", "/plugins/sub/Reverb.vst3"], throws := false }
      else if p = "/plugins/sub" then
        { entries := ["/plugins/sub/Reverb.vst3"], throws := false }
      else { entries := [], throws := p = "/plugins/sub/Reverb.vst3" } }

/-- A Linux filesystem for a user whose home is `/home/u`: `/home/u/.vst3`
does not exist, `/usr/lib/vst3` is an existing directory the process may not
read, so its traversal throws at once, and `/usr/local/lib/vst3` holds the
single bundle `Reverb.vst3`. -/
def lockedFs : FileSystem :=
  { pathExists := fun p =>
      Outcome.returned
        (p = "/usr/lib/vst3" || p = "/usr/local/lib/vst3" ||
          p = "/usr/local/lib/vst3/Reverb.vst3")
    walk := fun p =>
      if p = "/usr/local/lib/vst3" then
        { entries := ["/usr/local/lib/vst3/Reverb.vst3"], throws := false }
      else { entries := [], throws := true } }

/-- A Linux filesystem for a user whose home is `/home/u`: `/home/u/.vst3` and
`/usr/local/lib/vst3` do not exist, and the traversal of the existing
directory `/usr/lib/vst3` yields the bundle `Reverb.vst3` and then fails on a
subdirectory that cannot be opened. -/
def partialFs : FileSystem :=
  { pathExists := fun p =>
      Outcome.returned (p = "/usr/lib/vst3" || p = "/usr/lib/vst3/Reverb.vst3")
    walk := fun p =>
      if p = "/usr/lib/vst3" then
        { entries := ["/usr/lib/vst3/Reverb.vst3"], throws := true }
      else { entries := [], throws := true } }

/-- A Linux filesystem for a user whose home `/home/u` the process may not
search: `/home/u/.vst3` does not exist, but asking for it fails with a
permission error, so `fs::exists` throws. `/usr/lib/vst3` does not exist and
`/usr/local/lib/vst3` holds the single bundle `Reverb.vst3`. -/
def guardedFs : FileSystem :=
  { pathExists := fun p =>
      if p = "/home/u/.vst3" then Outcome.filesystem_error
      else Outcome.returned
        (p = "/usr/local/lib/vst3" || p = "/usr/local/lib/vst3/Reverb.vst3")
    walk := fun p =>
      if p = "/usr/local/lib/vst3" then
        { entries := ["/usr/local/lib/vst3/Reverb.vst3"], throws := false }
      else { entries := [], throws := true } }

/-- An environment for the examples: Linux, `HOME=/home/u`, the filesystem
`reverbFs`. -/
def exampleEnv (sdk : Bool) : Env :=
  { sdk := sdk, platform := Platform.linux, home := some "/home/u", fs := reverbFs }

/-- The Linux environment of a user whose home is `/home/u`, on a given
filesystem. -/
def linuxEnv (sdk : Bool) (fs : FileSystem) : Env :=
  { sdk := sdk, platform := Platform.linux, home := some "/home/u", fs := fs }

/-! ## Definitions used to state the properties -/

/-- The handle built from a counter value. -/
def handleOf (n : Int) : String := "vst3-" ++ to_string n

/-- The value of a decimal digit character. -/
def digitValue (c : Char) : Nat := c.toNat - 48

/-- The number a list of decimal digit characters denotes, continuing from
the value `a` of the digits read before. -/
def decimalValue (a : Nat) (cs : List Char) : Nat :=
  cs.foldl (fun v c => 10 * v + digitValue c) a

/-- The descriptors a scan is to return, in the words of the specification:
for each search path that exists, in order, one descriptor for each entry
found under it whose extension is `.vst3`, with the entry's path as `path`
and `uid`, its stem as `name`, and the effect flag set. -/
def expectedDescriptors (platform : Platform) (fs : FileSystem)
    (searchPaths : List String) : List PluginInfo :=
  ((searchPaths.filter (fun p => fs.pathExists p = Outcome.returned true)).map
    (fun searchPath =>
      (((fs.walk searchPath).entries.filter
          (fun entry => extension platform entry = ".vst3")).map
        (fun entry =>
          ({ path := entry, name := stem platform entry, vendor := "Unknown", uid := entry,
             isInstrument := false, isEffect := true } : PluginInfo))))).flatten

/-- Two scan outcomes put one after the other: the descriptors of the first
followed by those of the second when both scans return, and the exception
when either ends in one. -/
def appendOutcomes (a b : Outcome (List PluginInfo)) : Outcome (List PluginInfo) :=
  match a, b with
  | Outcome.returned x, Outcome.returned y => Outcome.returned (x ++ y)
  | _, _ => Outcome.filesystem_error

/-- The invariant of the instance table: no key occurs twice, and every
entry holds an instance that records its own handle and whose processor, when
it has one, is loaded; with the SDK every instance has a processor. -/
def Registered (sdk : Bool) (s : HostState) : Prop :=
  s.loadedPlugins.keys.Nodup ∧
    ∀ e ∈ s.loadedPlugins,
      e.2.uid = e.1 ∧
        (sdk = true → ∃ p, e.2.processor = some p ∧ p.loaded = true) ∧
        (∀ p, e.2.processor = some p → p.loaded = true)

/-! ## Decimal rendering is injective -/

theorem digitValue_digitChar : ∀ d, d < 10 → digitValue (Nat.digitChar d) = d := by
  decide

theorem decimalValue_toDigitsCore (fuel : Nat) :
    ∀ (n : Nat) (ds : List Char), n < fuel →
      decimalValue 0 (Nat.toDigitsCore 10 fuel n ds) = decimalValue n ds := by
  induction fuel with
  | zero => intro n ds h; omega
  | succ fuel ih =>
    intro n ds h
    have hd : digitValue (Nat.digitChar (n % 10)) = n % 10 :=
      digitValue_digitChar _ (Nat.mod_lt _ (by decide))
    simp only [Nat.toDigitsCore]
    by_cases hq : n / 10 = 0
    · simp only [hq, if_true]
      simp only [decimalValue, List.foldl_cons, hd]
      have : n % 10 = n := Nat.mod_eq_of_lt (by omega)
      simp [this]
    · simp only [hq, if_false]
      rw [ih (n / 10) _ (by omega)]
      simp only [decimalValue, List.foldl_cons, hd]
      have : 10 * (n / 10) + n % 10 = n := Nat.div_add_mod n 10
      rw [this]

theorem decimalValue_repr (n : Nat) : decimalValue 0 (Nat.repr n).data = n := by
  have h := decimalValue_toDigitsCore (n + 1) n [] (Nat.lt_succ_self n)
  simpa [Nat.repr, Nat.toDigits, List.asString, decimalValue] using h

theorem repr_injective {a b : Nat} (h : Nat.repr a = Nat.repr b) : a = b := by
  have ha := decimalValue_repr a
  rw [h, decimalValue_repr b] at ha
  exact ha.symm

theorem handleOf_injective {a b : Nat} (h : handleOf (a : Int) = handleOf (b : Int)) :
    a = b := by
  have h1 : Nat.repr a = Nat.repr b := by
    have h2 := congrArg String.data h
    simp only [handleOf, String.data_append] at h2
    have h3 := List.append_cancel_left h2
    have ha : to_string (a : Int) = Nat.repr a := rfl
    have hb : to_string (b : Int) = Nat.repr b := rfl
    rw [ha, hb] at h3
    exact String.ext h3
  exact repr_injective h1

/-! ## The instance table -/

namespace PluginMap

theorem find_eq_none_iff (m : PluginMap) (id : String) :
    m.find id = none ↔ id ∉ m.keys := by
  induction m with
  | nil => simp [find, keys]
  | cons e rest ih =>
    obtain ⟨k, v⟩ := e
    by_cases hk : k = id
    · simp [find, keys, hk]
    · have hk2 : ¬ id = k := fun h => hk h.symm
      simpa [find, keys, hk, hk2] using ih

theorem find_some_mem {m : PluginMap} {id : String} {v : LoadedPlugin}
    (h : m.find id = some v) : (id, v) ∈ m := by
  induction m with
  | nil => simp [find] at h
  | cons e rest ih =>
    obtain ⟨k, w⟩ := e
    by_cases hk : k = id
    · simp [find, hk] at h
      simp [hk, h]
    · simp [find, hk] at h
      exact List.mem_cons_of_mem _ (ih h)

theorem erase_of_find_none {m : PluginMap} {id : String} (h : m.find id = none) :
    m.erase id = m := by
  induction m with
  | nil => rfl
  | cons e rest ih =>
    obtain ⟨k, v⟩ := e
    by_cases hk : k = id
    · simp [find, hk] at h
    · simp [find, hk] at h
      simp [erase, hk, ih h]

theorem mem_erase {m : PluginMap} {id : String} {e : String × LoadedPlugin}
    (h : e ∈ m.erase id) : e ∈ m ∧ e.1 ≠ id := by
  induction m with
  | nil => simp [erase] at h
  | cons x rest ih =>
    obtain ⟨k, v⟩ := x
    by_cases hk : k = id
    · simp only [erase, hk, if_true] at h
      exact ⟨List.mem_cons_of_mem _ (ih h).1, (ih h).2⟩
    · simp only [erase, hk, if_false, List.mem_cons] at h
      rcases h with h | h
      · subst h
        exact ⟨List.mem_cons_self _ _, hk⟩
      · exact ⟨List.mem_cons_of_mem _ (ih h).1, (ih h).2⟩

theorem find_erase_self (m : PluginMap) (id : String) : (m.erase id).find id = none := by
  rw [find_eq_none_iff]
  intro h
  simp only [keys, List.mem_map] at h
  obtain ⟨e, he, hid⟩ := h
  exact (mem_erase he).2 hid

theorem assign_find_self {m : PluginMap} {id : String} {v : LoadedPlugin}
    (h : m.find id = some v) : m.assign id v = m := by
  induction m with
  | nil => simp [find] at h
  | cons e rest ih =>
    obtain ⟨k, w⟩ := e
    by_cases hk : k = id
    · simp [find, hk] at h
      simp [assign, hk, h]
    · simp [find, hk] at h
      simp [assign, hk, ih h]

theorem mem_assign {m : PluginMap} {id : String} {v : LoadedPlugin}
    {e : String × LoadedPlugin} (h : e ∈ m.assign id v) : e ∈ m ∨ e = (id, v) := by
  induction m with
  | nil => simpa [assign] using h
  | cons x rest ih =>
    obtain ⟨k, w⟩ := x
    by_cases hk : k = id
    · simp only [assign, hk, if_true, List.mem_cons] at h
      rcases h with h | h
      · exact Or.inr h
      · exact Or.inl (List.mem_cons_of_mem _ h)
    · simp only [assign, hk, if_false, List.mem_cons] at h
      rcases h with h | h
      · exact Or.inl (h ▸ List.mem_cons_self _ _)
      · rcases ih h with h2 | h2
        · exact Or.inl (List.mem_cons_of_mem _ h2)
        · exact Or.inr h2

theorem keys_assign (m : PluginMap) (id : String) (v : LoadedPlugin) (k : String) :
    k ∈ (m.assign id v).keys ↔ k ∈ m.keys ∨ k = id := by
  induction m with
  | nil => simp [assign, keys]
  | cons x rest ih =>
    obtain ⟨k2, w⟩ := x
    by_cases hk : k2 = id
    · simp only [assign, hk, if_true, keys, List.map_cons, List.mem_cons]
      tauto
    · simp only [assign, hk, if_false, keys, List.map_cons, List.mem_cons]
      simp only [keys] at ih
      rw [ih]
      tauto

theorem find_assign_self (m : PluginMap) (id : String) (v : LoadedPlugin) :
    (m.assign id v).find id = some v := by
  induction m with
  | nil => simp [assign, find]
  | cons x rest ih =>
    obtain ⟨k, w⟩ := x
    by_cases hk : k = id
    · simp [assign, find, hk]
    · simp [assign, find, hk, ih]

theorem nodup_keys_erase {m : PluginMap} (id : String) (h : m.keys.Nodup) :
    (m.erase id).keys.Nodup := by
  induction m with
  | nil => simp [erase, keys]
  | cons x rest ih =>
    obtain ⟨k, w⟩ := x
    simp only [keys, List.map_cons, List.nodup_cons] at h
    by_cases hk : k = id
    · simp only [erase, hk, if_true]
      exact ih h.2
    · simp only [erase, hk, if_false, keys, List.map_cons, List.nodup_cons]
      refine ⟨?_, ih h.2⟩
      intro hmem
      simp only [List.mem_map] at hmem
      obtain ⟨e, he, hek⟩ := hmem
      exact h.1 (List.mem_map.mpr ⟨e, (mem_erase he).1, hek⟩)

theorem nodup_keys_assign {m : PluginMap} (id : String) (v : LoadedPlugin)
    (h : m.keys.Nodup) : (m.assign id v).keys.Nodup := by
  induction m with
  | nil => simp [assign, keys]
  | cons x rest ih =>
    obtain ⟨k, w⟩ := x
    simp only [keys, List.map_cons, List.nodup_cons] at h
    by_cases hk : k = id
    · simp only [assign, hk, if_true, keys, List.map_cons, List.nodup_cons]
      exact ⟨hk ▸ h.1, h.2⟩
    · simp only [assign, hk, if_false, keys, List.map_cons, List.nodup_cons]
      refine ⟨?_, ih h.2⟩
      intro hmem
      rcases (keys_assign rest id v k).mp hmem with h2 | h2
      · exact h.1 h2
      · exact hk h2

end PluginMap

/-! ## Calls that leave the state alone -/

theorem withProcessor_id (plugin : LoadedPlugin) :
    plugin.withProcessor (fun p => p) = plugin := by
  unfold LoadedPlugin.withProcessor
  cases h : plugin.processor with
  | none => rfl
  | some p => simp only [← h]

theorem SetParameter_state (sdk : Bool) (s : HostState) (id : String) (paramId : Nat)
    (value : Rat) : SetParameter sdk s id paramId value = s := by
  unfold SetParameter
  cases h : s.loadedPlugins.find id with
  | none => rfl
  | some plugin =>
    cases sdk with
    | false => rfl
    | true =>
      have hp : plugin.withProcessor (fun p => p.setParameter paramId value) = plugin :=
        withProcessor_id plugin
      simp only [if_true, hp, PluginMap.assign_find_self h]

theorem SetState_state (sdk : Bool) (s : HostState) (id : String) (state : String) :
    SetState sdk s id state = s := by
  unfold SetState
  cases h : s.loadedPlugins.find id with
  | none => rfl
  | some plugin =>
    cases sdk with
    | false => rfl
    | true =>
      have hp : plugin.withProcessor (fun p => p.setState state) = plugin :=
        withProcessor_id plugin
      simp only [if_true, hp, PluginMap.assign_find_self h]

theorem process_eq (p : VST3Processor) (buffer : List Rat) :
    p.process buffer = (p, buffer) := by
  unfold VST3Processor.process
  split <;> rfl

theorem ProcessAudio_state (sdk : Bool) (s : HostState) (id : String) (buffer : List Rat) :
    ProcessAudio sdk s id buffer = (s, buffer) := by
  unfold ProcessAudio
  cases h : s.loadedPlugins.find id with
  | none => rfl
  | some plugin =>
    cases sdk with
    | false => rfl
    | true =>
      cases hp : plugin.processor with
      | none => simp only [if_true, hp]
      | some processor =>
        have h1 : ({ plugin with processor := some processor } : LoadedPlugin) = plugin := by
          rw [← hp]
        simp only [if_true, hp, process_eq, h1, PluginMap.assign_find_self h]

theorem GetState_eq (sdk : Bool) (s : HostState) (id : String) :
    GetState sdk s id = "" := by
  unfold GetState
  cases s.loadedPlugins.find id with
  | none => rfl
  | some plugin =>
    cases sdk with
    | false => rfl
    | true =>
      cases hp : plugin.processor with
      | none => simp only [if_true, hp]
      | some processor =>
        simp only [if_true, hp, VST3Processor.getParameters, VST3Processor.getState, List.map_nil]

/-! ## Sequences of calls -/

theorem wrapInt32_succ {z : Int} (h0 : 0 ≤ z) (h1 : z + 1 ≤ 2 ^ 31 - 1) :
    wrapInt32 (z + 1) = z + 1 := by
  unfold wrapInt32
  norm_num at h1 ⊢
  omega

theorem LoadPlugin_some (sdk : Bool) (platform : Platform) (s : HostState)
    (path : String) :
    ∃ plugin : LoadedPlugin,
      plugin.uid = handleOf s.nextPluginId ∧ plugin.path = path ∧
      (sdk = true → ∃ p, plugin.processor = some p ∧ p.loaded = true) ∧
      (∀ p, plugin.processor = some p → p.loaded = true) ∧
      LoadPlugin sdk platform s (some path) =
        ({ s with
            nextPluginId := wrapInt32 (s.nextPluginId + 1)
            loadedPlugins := s.loadedPlugins.assign (handleOf s.nextPluginId) plugin },
          Except.ok (handleOf s.nextPluginId)) := by
  cases sdk with
  | false =>
    refine ⟨{ uid := handleOf s.nextPluginId, path := path, name := stem platform path,
              parameters := [], processor := none }, rfl, rfl, ?_, ?_, rfl⟩
    · intro h; cases h
    · intro p h; cases h
  | true =>
    refine ⟨{ uid := handleOf s.nextPluginId, path := path, name := stem platform path,
              parameters := [], processor := some
                { pluginPath := path, loaded := true, sampleRate := 44100, blockSize := 512 } },
            rfl, rfl, ?_, ?_, rfl⟩
    · intro _; exact ⟨_, rfl, rfl⟩
    · intro p h
      cases h
      rfl

theorem ScanPlugins_state (env : Env) (s : HostState) :
    (ScanPlugins env s).1.loadedPlugins = s.loadedPlugins ∧
      (ScanPlugins env s).1.nextPluginId = s.nextPluginId := by
  unfold ScanPlugins
  cases env.sdk with
  | true =>
    simp only [if_true]
    split <;> exact ⟨rfl, rfl⟩
  | false => exact ⟨rfl, rfl⟩

theorem step_state_of_query (env : Env) (s : HostState) (c : Call)
    (hl : ∀ arg, c ≠ Call.loadPlugin arg) (hu : ∀ id, c ≠ Call.unloadPlugin id) :
    (step env s c).1.loadedPlugins = s.loadedPlugins ∧
      (step env s c).1.nextPluginId = s.nextPluginId := by
  cases c with
  | scanPlugins =>
    have h := ScanPlugins_state env s
    simp only [step]
    split <;> simp_all
  | loadPlugin arg => exact absurd rfl (hl arg)
  | unloadPlugin id => exact absurd rfl (hu id)
  | getParameters id => exact ⟨rfl, rfl⟩
  | setParameter id paramId value => simp only [step, SetParameter_state, and_self]
  | processAudio id buffer => simp only [step, ProcessAudio_state, and_self]
  | getState id => exact ⟨rfl, rfl⟩
  | setState id state => simp only [step, SetState_state, and_self]

theorem run_append (env : Env) (s : HostState) (xs ys : List Call) :
    run env s (xs ++ ys) = run env (run env s xs) ys := by
  induction xs generalizing s with
  | nil => rfl
  | cons c rest ih => exact ih (step env s c).1

theorem loadCount_append (xs ys : List Call) :
    loadCount (xs ++ ys) = loadCount xs + loadCount ys := by
  induction xs with
  | nil => simp [loadCount]
  | cons c rest ih =>
    have ih2 : loadCount (rest ++ ys) = loadCount rest + loadCount ys := ih
    cases c with
    | loadPlugin arg =>
      cases arg with
      | none => exact ih2
      | some path =>
        show loadCount (rest ++ ys) + 1 = loadCount rest + 1 + loadCount ys
        omega
    | _ => exact ih2

theorem issued_cons_of_query (env : Env) (s : HostState) (c : Call) (rest : List Call)
    (hl : ∀ arg, c ≠ Call.loadPlugin arg) :
    issued env s (c :: rest) = issued env (step env s c).1 rest := by
  cases c with
  | loadPlugin arg => exact absurd rfl (hl arg)
  | _ => rfl

theorem issued_and_counter (env : Env) :
    ∀ (calls : List Call) (s : HostState), 0 ≤ s.nextPluginId →
      s.nextPluginId + (loadCount calls : Int) ≤ 2 ^ 31 - 1 →
      issued env s calls =
          (List.range (loadCount calls)).map
            (fun (i : Nat) => handleOf (s.nextPluginId + (i : Int))) ∧
        (run env s calls).nextPluginId = s.nextPluginId + (loadCount calls : Int) := by
  intro calls
  induction calls with
  | nil => intro s _ _; simp [issued, run, loadCount]
  | cons c rest ih =>
    intro s h0 hb
    by_cases hload : ∃ path, c = Call.loadPlugin (some path)
    · obtain ⟨path, rfl⟩ := hload
      obtain ⟨plugin, -, -, -, -, hL⟩ := LoadPlugin_some env.sdk env.platform s path
      have hcount : loadCount (Call.loadPlugin (some path) :: rest) = loadCount rest + 1 := rfl
      rw [hcount] at hb ⊢
      push_cast at hb
      have hw : wrapInt32 (s.nextPluginId + 1) = s.nextPluginId + 1 :=
        wrapInt32_succ h0 (by omega)
      have hstep : (step env s (Call.loadPlugin (some path))).1 =
          { s with
            nextPluginId := s.nextPluginId + 1
            loadedPlugins := s.loadedPlugins.assign (handleOf s.nextPluginId) plugin } := by
        simp only [step, hL, hw]
      have hiss : issued env s (Call.loadPlugin (some path) :: rest) =
          handleOf s.nextPluginId ::
            issued env (step env s (Call.loadPlugin (some path))).1 rest := by
        simp only [issued, hL]
      have hrun : run env s (Call.loadPlugin (some path) :: rest) =
          run env (step env s (Call.loadPlugin (some path))).1 rest := rfl
      rw [hiss, hrun, hstep]
      have := ih { s with
            nextPluginId := s.nextPluginId + 1
            loadedPlugins := s.loadedPlugins.assign (handleOf s.nextPluginId) plugin }
          (by show 0 ≤ s.nextPluginId + 1; omega)
          (by show s.nextPluginId + 1 + (loadCount rest : Int) ≤ 2 ^ 31 - 1; omega)
      obtain ⟨h1, h2⟩ := this
      refine ⟨?_, ?_⟩
      · rw [h1, List.range_succ_eq_map]
        simp only [List.map_cons, List.map_map, Nat.cast_zero, add_zero]
        congr 1
        apply List.map_congr_left
        intro i _
        simp only [Function.comp, Nat.cast_succ]
        congr 1
        omega
      · rw [h2]
        push_cast
        omega
    · have hq : (step env s c).1.nextPluginId = s.nextPluginId ∧
          issued env s (c :: rest) = issued env (step env s c).1 rest ∧
          loadCount (c :: rest) = loadCount rest := by
        cases c with
        | loadPlugin arg =>
          cases arg with
          | none => exact ⟨rfl, rfl, rfl⟩
          | some path => exact absurd ⟨path, rfl⟩ hload
        | unloadPlugin id => exact ⟨rfl, rfl, rfl⟩
        | scanPlugins =>
          exact ⟨(step_state_of_query env s _ (by simp) (by simp)).2, rfl, rfl⟩
        | getParameters id => exact ⟨rfl, rfl, rfl⟩
        | setParameter id paramId value =>
          exact ⟨(step_state_of_query env s _ (by simp) (by simp)).2, rfl, rfl⟩
        | processAudio id buffer =>
          exact ⟨(step_state_of_query env s _ (by simp) (by simp)).2, rfl, rfl⟩
        | getState id => exact ⟨rfl, rfl, rfl⟩
        | setState id state =>
          exact ⟨(step_state_of_query env s _ (by simp) (by simp)).2, rfl, rfl⟩
      obtain ⟨hn, hi, hc⟩ := hq
      have hrun : run env s (c :: rest) = run env (step env s c).1 rest := rfl
      rw [hi, hc, hrun, ← hn]
      exact ih (step env s c).1 (by rw [hn]; exact h0) (by rw [hn, ← hc]; exact hb)

theorem keys_run (env : Env) :
    ∀ (calls : List Call) (s : HostState) (k : String),
      k ∈ (run env s calls).loadedPlugins.keys →
        k ∈ s.loadedPlugins.keys ∨ k ∈ issued env s calls := by
  intro calls
  induction calls with
  | nil => intro s k h; exact Or.inl h
  | cons c rest ih =>
    intro s k h
    have hrun : run env s (c :: rest) = run env (step env s c).1 rest := rfl
    rw [hrun] at h
    rcases ih _ k h with h1 | h1
    · cases c with
      | loadPlugin arg =>
        cases arg with
        | none => exact Or.inl h1
        | some path =>
          obtain ⟨plugin, -, -, -, -, hL⟩ := LoadPlugin_some env.sdk env.platform s path
          simp only [step, hL] at h1
          rcases (PluginMap.keys_assign _ _ _ _).mp h1 with h2 | h2
          · exact Or.inl h2
          · refine Or.inr ?_
            simp only [issued, hL, h2, List.mem_cons, true_or]
      | unloadPlugin id =>
        refine Or.inl ?_
        simp only [step, UnloadPlugin, PluginMap.keys, List.mem_map] at h1
        obtain ⟨e, he, hek⟩ := h1
        exact List.mem_map.mpr ⟨e, (PluginMap.mem_erase he).1, hek⟩
      | scanPlugins =>
        rw [(step_state_of_query env s _ (by simp) (by simp)).1] at h1
        exact Or.inl h1
      | getParameters id => exact Or.inl h1
      | setParameter id paramId value =>
        rw [(step_state_of_query env s _ (by simp) (by simp)).1] at h1
        exact Or.inl h1
      | processAudio id buffer =>
        rw [(step_state_of_query env s _ (by simp) (by simp)).1] at h1
        exact Or.inl h1
      | getState id => exact Or.inl h1
      | setState id state =>
        rw [(step_state_of_query env s _ (by simp) (by simp)).1] at h1
        exact Or.inl h1
    · refine Or.inr ?_
      cases c with
      | loadPlugin arg =>
        cases arg with
        | none => exact h1
        | some path =>
          obtain ⟨plugin, -, -, -, -, hL⟩ := LoadPlugin_some env.sdk env.platform s path
          simp only [issued, hL]
          exact List.mem_cons_of_mem _ h1
      | _ => exact h1

/-! ## The scan loops -/

theorem scanEntries_eq (platform : Platform) (plugins : List PluginInfo)
    (entries : List String) :
    scanEntries platform plugins entries =
      plugins ++
        (entries.filter (fun entry => extension platform entry = ".vst3")).map
          (makeInfo platform) := by
  induction entries generalizing plugins with
  | nil => simp [scanEntries]
  | cons e rest ih =>
    by_cases he : extension platform e = ".vst3"
    · simp [scanEntries, he, ih]
    · simp [scanEntries, he, ih]

theorem scanEntries_append (platform : Platform) (plugins : List PluginInfo)
    (entries : List String) :
    scanEntries platform plugins entries = plugins ++ scanEntries platform [] entries := by
  rw [scanEntries_eq, scanEntries_eq platform []]
  rfl

theorem expectedDescriptors_cons (platform : Platform) (fs : FileSystem) (p : String)
    (rest : List String) :
    expectedDescriptors platform fs (p :: rest) =
      (if fs.pathExists p = Outcome.returned true then
          scanEntries platform [] (fs.walk p).entries
        else []) ++
        expectedDescriptors platform fs rest := by
  by_cases hp : fs.pathExists p = Outcome.returned true
  · simp only [expectedDescriptors, List.filter_cons, hp, decide_True, if_true, List.map_cons,
      List.flatten_cons, scanEntries_eq, List.nil_append]
    rfl
  · simp only [expectedDescriptors, List.filter_cons, hp, decide_False, if_false,
      List.nil_append]
    simp

theorem expectedDescriptors_append (platform : Platform) (fs : FileSystem)
    (ps qs : List String) :
    expectedDescriptors platform fs (ps ++ qs) =
      expectedDescriptors platform fs ps ++ expectedDescriptors platform fs qs := by
  simp [expectedDescriptors]

theorem expectedDescriptors_filter (platform : Platform) (fs : FileSystem)
    (searchPaths : List String) :
    expectedDescriptors platform fs
        (searchPaths.filter (fun p => fs.pathExists p = Outcome.returned true)) =
      expectedDescriptors platform fs searchPaths := by
  simp [expectedDescriptors, List.filter_filter]

theorem pathExists_cases (fs : FileSystem) (p : String) :
    fs.pathExists p = Outcome.filesystem_error ∨ fs.pathExists p = Outcome.returned false ∨
      fs.pathExists p = Outcome.returned true := by
  cases h : fs.pathExists p with
  | filesystem_error => exact Or.inl rfl
  | returned b =>
    cases b with
    | false => exact Or.inr (Or.inl rfl)
    | true => exact Or.inr (Or.inr rfl)

theorem scanLoop_cons_error (platform : Platform) (fs : FileSystem)
    (plugins : List PluginInfo) (p : String) (rest : List String)
    (h : fs.pathExists p = Outcome.filesystem_error) :
    VST3Scanner.scanLoop platform fs plugins (p :: rest) = Outcome.filesystem_error := by
  simp only [VST3Scanner.scanLoop, h]

theorem scanLoop_cons_missing (platform : Platform) (fs : FileSystem)
    (plugins : List PluginInfo) (p : String) (rest : List String)
    (h : fs.pathExists p = Outcome.returned false) :
    VST3Scanner.scanLoop platform fs plugins (p :: rest) =
      VST3Scanner.scanLoop platform fs plugins rest := by
  simp only [VST3Scanner.scanLoop, h]

theorem scanLoop_cons_found (platform : Platform) (fs : FileSystem)
    (plugins : List PluginInfo) (p : String) (rest : List String)
    (h : fs.pathExists p = Outcome.returned true) :
    VST3Scanner.scanLoop platform fs plugins (p :: rest) =
      VST3Scanner.scanLoop platform fs (scanEntries platform plugins (fs.walk p).entries)
        rest := by
  simp only [VST3Scanner.scanLoop, h, ite_self]

theorem stubScanLoop_cons_error (platform : Platform) (fs : FileSystem)
    (plugins : List PluginInfo) (p : String) (rest : List String)
    (h : fs.pathExists p = Outcome.filesystem_error) :
    stubScanLoop platform fs plugins (p :: rest) = (plugins, true) := by
  simp only [stubScanLoop, h]

theorem stubScanLoop_cons_missing (platform : Platform) (fs : FileSystem)
    (plugins : List PluginInfo) (p : String) (rest : List String)
    (h : fs.pathExists p = Outcome.returned false) :
    stubScanLoop platform fs plugins (p :: rest) = stubScanLoop platform fs plugins rest := by
  simp only [stubScanLoop, h]

theorem stubScanLoop_cons_found (platform : Platform) (fs : FileSystem)
    (plugins : List PluginInfo) (p : String) (rest : List String)
    (h : fs.pathExists p = Outcome.returned true) :
    stubScanLoop platform fs plugins (p :: rest) =
      if (fs.walk p).throws then (scanEntries platform plugins (fs.walk p).entries, true)
      else stubScanLoop platform fs (scanEntries platform plugins (fs.walk p).entries)
        rest := by
  simp only [stubScanLoop, h]

theorem scanLoop_eq (platform : Platform) (fs : FileSystem) (searchPaths : List String)
    (plugins : List PluginInfo)
    (hok : ∀ p ∈ searchPaths, fs.pathExists p ≠ Outcome.filesystem_error) :
    VST3Scanner.scanLoop platform fs plugins searchPaths =
      Outcome.returned (plugins ++ expectedDescriptors platform fs searchPaths) := by
  induction searchPaths generalizing plugins with
  | nil => simp [VST3Scanner.scanLoop, expectedDescriptors]
  | cons p rest ih =>
    have hrest : ∀ q ∈ rest, fs.pathExists q ≠ Outcome.filesystem_error :=
      fun q hq => hok q (List.mem_cons_of_mem _ hq)
    rw [expectedDescriptors_cons]
    rcases pathExists_cases fs p with hp | hp | hp
    · exact absurd hp (hok p (List.mem_cons_self _ _))
    · rw [scanLoop_cons_missing _ _ _ _ _ hp, ih _ hrest]
      simp [hp]
    · rw [scanLoop_cons_found _ _ _ _ _ hp, ih _ hrest, scanEntries_append]
      simp [hp]

theorem stubScanLoop_eq (platform : Platform) (fs : FileSystem) (searchPaths : List String)
    (plugins : List PluginInfo)
    (hok : ∀ p ∈ searchPaths, fs.pathExists p ≠ Outcome.filesystem_error)
    (h : ∀ p ∈ searchPaths, fs.pathExists p = Outcome.returned true →
      (fs.walk p).throws = false) :
    stubScanLoop platform fs plugins searchPaths =
      (plugins ++ expectedDescriptors platform fs searchPaths, false) := by
  induction searchPaths generalizing plugins with
  | nil => simp [stubScanLoop, expectedDescriptors]
  | cons p rest ih =>
    have hokrest : ∀ q ∈ rest, fs.pathExists q ≠ Outcome.filesystem_error :=
      fun q hq => hok q (List.mem_cons_of_mem _ hq)
    have hrest : ∀ q ∈ rest, fs.pathExists q = Outcome.returned true →
        (fs.walk q).throws = false :=
      fun q hq => h q (List.mem_cons_of_mem _ hq)
    rw [expectedDescriptors_cons]
    rcases pathExists_cases fs p with hp | hp | hp
    · exact absurd hp (hok p (List.mem_cons_self _ _))
    · rw [stubScanLoop_cons_missing _ _ _ _ _ hp, ih _ hokrest hrest]
      simp [hp]
    · have ht := h p (List.mem_cons_self _ _) hp
      rw [stubScanLoop_cons_found _ _ _ _ _ hp, ih _ hokrest hrest, scanEntries_append]
      simp [hp, ht]

theorem appendOutcomes_error_left (b : Outcome (List PluginInfo)) :
    appendOutcomes Outcome.filesystem_error b = Outcome.filesystem_error := by
  cases b <;> rfl

theorem appendOutcomes_assoc_returned (x y : List PluginInfo)
    (c : Outcome (List PluginInfo)) :
    appendOutcomes (Outcome.returned (x ++ y)) c =
      appendOutcomes (Outcome.returned x) (appendOutcomes (Outcome.returned y) c) := by
  cases c with
  | returned z => simp [appendOutcomes]
  | filesystem_error => rfl

theorem scanLoop_accumulator (platform : Platform) (fs : FileSystem)
    (searchPaths : List String) (plugins : List PluginInfo) :
    VST3Scanner.scanLoop platform fs plugins searchPaths =
      appendOutcomes (Outcome.returned plugins)
        (VST3Scanner.scanLoop platform fs [] searchPaths) := by
  induction searchPaths generalizing plugins with
  | nil => simp [VST3Scanner.scanLoop, appendOutcomes]
  | cons p rest ih =>
    rcases pathExists_cases fs p with hp | hp | hp
    · rw [scanLoop_cons_error _ _ _ _ _ hp, scanLoop_cons_error _ _ _ _ _ hp]
      rfl
    · rw [scanLoop_cons_missing _ _ _ _ _ hp, scanLoop_cons_missing _ _ _ _ _ hp]
      exact ih plugins
    · rw [scanLoop_cons_found _ _ _ _ _ hp, scanLoop_cons_found _ _ _ _ _ hp,
        ih (scanEntries platform plugins (fs.walk p).entries),
        ih (scanEntries platform [] (fs.walk p).entries),
        scanEntries_append platform plugins, appendOutcomes_assoc_returned]

theorem scanLoop_append (platform : Platform) (fs : FileSystem) (ps qs : List String)
    (plugins : List PluginInfo) :
    VST3Scanner.scanLoop platform fs plugins (ps ++ qs) =
      appendOutcomes (VST3Scanner.scanLoop platform fs plugins ps)
        (VST3Scanner.scanLoop platform fs [] qs) := by
  induction ps generalizing plugins with
  | nil =>
    rw [List.nil_append, scanLoop_accumulator]
    rfl
  | cons p rest ih =>
    rw [List.cons_append]
    rcases pathExists_cases fs p with hp | hp | hp
    · rw [scanLoop_cons_error _ _ _ _ _ hp, scanLoop_cons_error _ _ _ _ _ hp,
        appendOutcomes_error_left]
    · rw [scanLoop_cons_missing _ _ _ _ _ hp, scanLoop_cons_missing _ _ _ _ _ hp]
      exact ih plugins
    · rw [scanLoop_cons_found _ _ _ _ _ hp, scanLoop_cons_found _ _ _ _ _ hp]
      exact ih _

theorem scan_raises_iff (platform : Platform) (fs : FileSystem)
    (searchPaths : List String) (plugins : List PluginInfo) :
    VST3Scanner.scanLoop platform fs plugins searchPaths = Outcome.filesystem_error ↔
      ∃ p ∈ searchPaths, fs.pathExists p = Outcome.filesystem_error := by
  induction searchPaths generalizing plugins with
  | nil => simp [VST3Scanner.scanLoop]
  | cons p rest ih =>
    rcases pathExists_cases fs p with hp | hp | hp
    · rw [scanLoop_cons_error _ _ _ _ _ hp]
      simp [hp]
    · rw [scanLoop_cons_missing _ _ _ _ _ hp, ih]
      simp [hp]
    · rw [scanLoop_cons_found _ _ _ _ _ hp, ih]
      simp [hp]

theorem stubScanLoop_raises_iff (platform : Platform) (fs : FileSystem)
    (searchPaths : List String) (plugins : List PluginInfo) :
    (stubScanLoop platform fs plugins searchPaths).2 = true ↔
      ∃ p ∈ searchPaths, fs.pathExists p = Outcome.filesystem_error ∨
        (fs.pathExists p = Outcome.returned true ∧ (fs.walk p).throws = true) := by
  induction searchPaths generalizing plugins with
  | nil => simp [stubScanLoop]
  | cons p rest ih =>
    rcases pathExists_cases fs p with hp | hp | hp
    · rw [stubScanLoop_cons_error _ _ _ _ _ hp]
      simp [hp]
    · rw [stubScanLoop_cons_missing _ _ _ _ _ hp, ih]
      simp [hp]
    · rw [stubScanLoop_cons_found _ _ _ _ _ hp]
      by_cases ht : (fs.walk p).throws = true
      · simp [hp, ht]
      · simp only [Bool.not_eq_true] at ht
        simp [hp, ht, ih]

/-! ## Handles -/

theorem handleOf_offset_injective {c : Int} (hc : 0 ≤ c) {i j : Nat}
    (h : handleOf (c + (i : Int)) = handleOf (c + (j : Int))) : i = j := by
  obtain ⟨n, rfl⟩ := Int.eq_ofNat_of_zero_le hc
  have h2 : handleOf ((n + i : Nat) : Int) = handleOf ((n + j : Nat) : Int) := by
    push_cast
    exact h
  have := handleOf_injective h2
  omega

theorem handleOf_nat (n : Nat) : handleOf (n : Int) = "vst3-" ++ Nat.repr n := rfl

/-- C1: starting from the initial state, over every sequence of calls whose
`loadPlugin` calls stay short of overflowing the counter, every `loadPlugin`
call given a string returns a handle, the handles returned are pairwise
different and each is `vst3-` followed by a positive decimal number, and a
handle that was returned and then passed to `unloadPlugin` is absent from
the instance table at the end of the sequence, whatever calls follow. -/
theorem loadPlugin_handles_never_reused (env : Env) (calls : List Call)
    (hbound : loadCount calls < 2 ^ 31 - 1) :
    (issued env HostState.init calls).length = loadCount calls ∧
      (issued env HostState.init calls).Nodup ∧
      (∀ h ∈ issued env HostState.init calls, ∃ n : Nat, 1 ≤ n ∧ h = "vst3-" ++ Nat.repr n) ∧
      (∀ (pre post : List Call) (h1 : String),
        calls = pre ++ Call.unloadPlugin h1 :: post →
        h1 ∈ issued env HostState.init pre →
        (run env HostState.init calls).loadedPlugins.find h1 = none) := by
  have hinit : HostState.init.nextPluginId = 1 := rfl
  have hb : HostState.init.nextPluginId + (loadCount calls : Int) ≤ 2 ^ 31 - 1 := by
    rw [hinit]
    norm_num at hbound ⊢
    omega
  obtain ⟨hiss, -⟩ := issued_and_counter env calls HostState.init (by decide) hb
  rw [hinit] at hiss
  refine ⟨?_, ?_, ?_, ?_⟩
  · rw [hiss]
    simp
  · rw [hiss]
    refine (List.nodup_range _).map_on ?_
    intro x _ y _ hxy
    exact handleOf_offset_injective (by decide) hxy
  · intro h hmem
    rw [hiss] at hmem
    simp only [List.mem_map, List.mem_range] at hmem
    obtain ⟨i, -, rfl⟩ := hmem
    refine ⟨1 + i, by omega, ?_⟩
    rw [← handleOf_nat]
    push_cast
    rfl
  · intro pre post h1 hcalls hmem
    have hcount : loadCount calls = loadCount pre + loadCount post := by
      rw [hcalls, loadCount_append]
      rfl
    have hbpre : HostState.init.nextPluginId + (loadCount pre : Int) ≤ 2 ^ 31 - 1 := by
      rw [hinit] at hb ⊢
      rw [hcount] at hb
      push_cast at hb
      omega
    obtain ⟨hpre, hnext⟩ := issued_and_counter env pre HostState.init (by decide) hbpre
    rw [hinit] at hpre hnext
    rw [hpre] at hmem
    simp only [List.mem_map, List.mem_range] at hmem
    obtain ⟨i, hi, rfl⟩ := hmem
    have hrun : run env HostState.init calls =
        run env (UnloadPlugin (run env HostState.init pre) (handleOf (1 + (i : Int)))) post := by
      rw [hcalls, run_append]
      rfl
    rw [hrun, PluginMap.find_eq_none_iff]
    intro hkey
    have hnext2 : (UnloadPlugin (run env HostState.init pre)
        (handleOf (1 + (i : Int)))).nextPluginId = 1 + (loadCount pre : Int) := hnext
    rcases keys_run env post _ _ hkey with h2 | h2
    · have := PluginMap.find_erase_self (run env HostState.init pre).loadedPlugins
        (handleOf (1 + (i : Int)))
      rw [PluginMap.find_eq_none_iff] at this
      exact this h2
    · have hbpost : (UnloadPlugin (run env HostState.init pre)
          (handleOf (1 + (i : Int)))).nextPluginId + (loadCount post : Int) ≤ 2 ^ 31 - 1 := by
        rw [hnext2]
        rw [hinit, hcount] at hb
        push_cast at hb
        norm_num
        omega
      obtain ⟨hpost, -⟩ := issued_and_counter env post _ (by rw [hnext2]; omega) hbpost
      rw [hpost, hnext2] at h2
      simp only [List.mem_map, List.mem_range] at h2
      obtain ⟨j, -, hj⟩ := h2
      have hj2 : handleOf (1 + ((loadCount pre + j : Nat) : Int)) = handleOf (1 + (i : Int)) := by
        rw [← hj]
        push_cast
        rw [add_assoc]
      have := handleOf_offset_injective (by decide) hj2
      omega

/-- Instance of C1, at the sequence load, unload, load of one path: the two handles are
`vst3-1` and `vst3-2`, and `vst3-1` is absent from the table afterwards. -/
theorem loadPlugin_handles_never_reused_witness :
    loadCount [Call.loadPlugin (some "/plugins/Reverb.vst3"), Call.unloadPlugin "vst3-1",
        Call.loadPlugin (some "/plugins/Reverb.vst3")] < 2 ^ 31 - 1 ∧
      issued (exampleEnv true) HostState.init
        [Call.loadPlugin (some "/plugins/Reverb.vst3"), Call.unloadPlugin "vst3-1",
          Call.loadPlugin (some "/plugins/Reverb.vst3")] = ["vst3-1", "vst3-2"] ∧
      (issued (exampleEnv true) HostState.init
        [Call.loadPlugin (some "/plugins/Reverb.vst3"), Call.unloadPlugin "vst3-1",
          Call.loadPlugin (some "/plugins/Reverb.vst3")]).Nodup ∧
      (run (exampleEnv true) HostState.init
        [Call.loadPlugin (some "/plugins/Reverb.vst3"), Call.unloadPlugin "vst3-1",
          Call.loadPlugin (some "/plugins/Reverb.vst3")]).loadedPlugins.find "vst3-1" = none :=
  have h := loadPlugin_handles_never_reused (exampleEnv true)
    [Call.loadPlugin (some "/plugins/Reverb.vst3"), Call.unloadPlugin "vst3-1",
      Call.loadPlugin (some "/plugins/Reverb.vst3")] (by decide)
  ⟨by decide, by decide, h.2.1,
    h.2.2.2 [Call.loadPlugin (some "/plugins/Reverb.vst3")]
      [Call.loadPlugin (some "/plugins/Reverb.vst3")] "vst3-1" rfl (by decide)⟩

/-! ## Handles that are not in the table -/

/-- C2: for every state and every handle that is not in the instance table,
`getParameters` returns the empty array, `getState` returns the empty string,
and `setParameter`, `setState`, `processAudio` and `unloadPlugin` return
without an exception and leave the whole state as it was, `processAudio`
handing the buffer back as given. -/
theorem calls_on_absent_handle_are_noops (env : Env) (s : HostState) (id : String)
    (habsent : s.loadedPlugins.find id = none)
    (paramId : Nat) (value : Rat) (buffer : List Rat) (state : String) :
    step env s (Call.getParameters id) = (s, Completion.parameters []) ∧
      step env s (Call.getState id) = (s, Completion.string "") ∧
      step env s (Call.setParameter id paramId value) = (s, Completion.undefined) ∧
      step env s (Call.setState id state) = (s, Completion.undefined) ∧
      step env s (Call.processAudio id buffer) = (s, Completion.buffer buffer) ∧
      step env s (Call.unloadPlugin id) = (s, Completion.undefined) := by
  refine ⟨?_, ?_, ?_, ?_, ?_, ?_⟩
  · simp only [step, GetParameters, habsent]
  · simp only [step, GetState, habsent]
  · simp only [step, SetParameter, habsent]
  · simp only [step, SetState, habsent]
  · simp only [step, ProcessAudio, habsent]
  · simp only [step, UnloadPlugin, PluginMap.erase_of_find_none habsent]

/-- Instance of C2, at the handle of a plugin that was loaded and unloaded: after
`load("/plugins/Reverb.vst3")` returns `vst3-1` and `unload("vst3-1")`, the
handle is not in the table and `getParameters("vst3-1")` is the empty array. -/
theorem calls_on_absent_handle_are_noops_witness :
    issued (exampleEnv true) HostState.init
        [Call.loadPlugin (some "/plugins/Reverb.vst3"), Call.unloadPlugin "vst3-1"] =
        ["vst3-1"] ∧
      (run (exampleEnv true) HostState.init
        [Call.loadPlugin (some "/plugins/Reverb.vst3"),
          Call.unloadPlugin "vst3-1"]).loadedPlugins.find "vst3-1" = none ∧
      (step (exampleEnv true)
        (run (exampleEnv true) HostState.init
          [Call.loadPlugin (some "/plugins/Reverb.vst3"), Call.unloadPlugin "vst3-1"])
        (Call.getParameters "vst3-1")).2 = Completion.parameters [] :=
  ⟨by decide, by decide,
    congrArg Prod.snd
      (calls_on_absent_handle_are_noops (exampleEnv true)
        (run (exampleEnv true) HostState.init
          [Call.loadPlugin (some "/plugins/Reverb.vst3"), Call.unloadPlugin "vst3-1"])
        "vst3-1" (by decide) 0 0 [] "").1⟩

/-! ## Scanning -/

/-- When no status query of a standard search path fails, and in the stub
build the traversal of each existing search path runs to its end,
`ScanPlugins` returns exactly one descriptor for each entry found under an
existing search path whose extension is `.vst3`, in the order found, and
nothing else; the descriptor carries the entry's path as `path` and `uid`, its
stem as `name`, the vendor `Unknown`, `isEffect = true` and
`isInstrument = false`. -/
theorem ScanPlugins_eq_expected (env : Env) (s : HostState)
    (hok : ∀ p ∈ standardSearchPaths env.platform env.home,
      env.fs.pathExists p ≠ Outcome.filesystem_error)
    (htraversal : env.sdk = false →
      ∀ p ∈ standardSearchPaths env.platform env.home,
        env.fs.pathExists p = Outcome.returned true → (env.fs.walk p).throws = false) :
    (ScanPlugins env s).2 =
      Outcome.returned
        (expectedDescriptors env.platform env.fs
          (standardSearchPaths env.platform env.home)) := by
  unfold ScanPlugins
  cases hsdk : env.sdk with
  | true =>
    simp only [if_true, VST3Scanner.scan, scanLoop_eq _ _ _ _ hok, List.nil_append]
  | false =>
    simp [stubScanLoop_eq _ _ _ _ hok (htraversal hsdk)]

/-- `ScanPlugins` ends in an exception exactly when the status query of some
standard search path fails or, in the stub build only, the traversal of an
existing one throws. -/
theorem ScanPlugins_raises_iff (env : Env) (s : HostState) :
    (ScanPlugins env s).2 = Outcome.filesystem_error ↔
      ∃ p ∈ standardSearchPaths env.platform env.home,
        env.fs.pathExists p = Outcome.filesystem_error ∨
          (env.sdk = false ∧ env.fs.pathExists p = Outcome.returned true ∧
            (env.fs.walk p).throws = true) := by
  unfold ScanPlugins
  cases hsdk : env.sdk with
  | true =>
    have h := scan_raises_iff env.platform env.fs
      (standardSearchPaths env.platform env.home) []
    simp only [if_true, VST3Scanner.scan]
    cases hscan : VST3Scanner.scanLoop env.platform env.fs []
        (standardSearchPaths env.platform env.home) with
    | returned ds =>
      rw [hscan] at h
      simp only [false_iff, reduceCtorEq] at h ⊢
      simpa using h
    | filesystem_error =>
      rw [hscan] at h
      simp only [true_iff] at h ⊢
      obtain ⟨p, hp, he⟩ := h
      exact ⟨p, hp, Or.inl he⟩
  | false =>
    have h := stubScanLoop_raises_iff env.platform env.fs
      (standardSearchPaths env.platform env.home) []
    cases hloop : (stubScanLoop env.platform env.fs []
        (standardSearchPaths env.platform env.home)).2 with
    | true =>
      rw [hloop] at h
      simpa [hloop] using h
    | false =>
      rw [hloop] at h
      simpa [hloop] using h

/-- With the single bundle `/plugins/Reverb.vst3` present,
`VST3Scanner::scan(["/plugins"])` is the one descriptor of the bundle. -/
theorem scan_reverb :
    VST3Scanner.scan Platform.linux reverbFs ["/plugins"] =
      Outcome.returned
        [{ path := "/plugins/Reverb.vst3", name := "Reverb", vendor := "Unknown",
           uid := "/plugins/Reverb.vst3", isInstrument := false, isEffect := true }] := by
  decide

/-- When no status query fails, scanning a list of search paths is scanning
the ones that exist. -/
theorem scan_filter_exists (platform : Platform) (fs : FileSystem)
    (searchPaths : List String)
    (hok : ∀ p ∈ searchPaths, fs.pathExists p ≠ Outcome.filesystem_error) :
    VST3Scanner.scan platform fs
        (searchPaths.filter (fun p => fs.pathExists p = Outcome.returned true)) =
      VST3Scanner.scan platform fs searchPaths := by
  have hok2 : ∀ p ∈ searchPaths.filter (fun p => fs.pathExists p = Outcome.returned true),
      fs.pathExists p ≠ Outcome.filesystem_error :=
    fun p hp => hok p (List.mem_filter.mp hp).1
  simp only [VST3Scanner.scan, scanLoop_eq _ _ _ _ hok, scanLoop_eq _ _ _ _ hok2,
    expectedDescriptors_filter]

/-- C3: on the Linux filesystem `partialFs`, where the traversal of the
existing standard search path `/usr/lib/vst3` finds the entry
`/usr/lib/vst3/Reverb.vst3`, whose extension is `.vst3`, and then fails, the
SDK build's `ScanPlugins` returns the descriptor of that entry, while the
stub build's `ScanPlugins` ends in the exception and returns no descriptor
for it. -/
theorem stub_scan_drops_found_entry :
    standardSearchPaths Platform.linux (some "/home/u") =
        ["/home/u/.vst3", "/usr/lib/vst3", "/usr/local/lib/vst3"] ∧
      partialFs.pathExists "/home/u/.vst3" = Outcome.returned false ∧
      partialFs.pathExists "/usr/lib/vst3" = Outcome.returned true ∧
      partialFs.pathExists "/usr/local/lib/vst3" = Outcome.returned false ∧
      "/usr/lib/vst3/Reverb.vst3" ∈ (partialFs.walk "/usr/lib/vst3").entries ∧
      extension Platform.linux "/usr/lib/vst3/Reverb.vst3" = ".vst3" ∧
      (ScanPlugins (linuxEnv false partialFs) HostState.init).2 = Outcome.filesystem_error ∧
      (ScanPlugins (linuxEnv true partialFs) HostState.init).2 =
        Outcome.returned
          [{ path := "/usr/lib/vst3/Reverb.vst3", name := "Reverb", vendor := "Unknown",
             uid := "/usr/lib/vst3/Reverb.vst3", isInstrument := false,
             isEffect := true }] := by
  decide

/-- C4: on the Linux filesystem `lockedFs`, whose standard search paths are
one missing directory, one existing directory that cannot be traversed and
one existing directory holding `Reverb.vst3`, the stub build's `ScanPlugins`
ends in the traversal's exception, while the SDK build's skips the directory
and returns the descriptor of the bundle. On `guardedFs`, where the first
search path does not exist and asking for it fails, `ScanPlugins` ends in the
exception of `fs::exists` in both builds, and the bundle under the last
search path is not scanned. -/
theorem scan_raises_on_search_path_error :
    standardSearchPaths Platform.linux (some "/home/u") =
        ["/home/u/.vst3", "/usr/lib/vst3", "/usr/local/lib/vst3"] ∧
      lockedFs.pathExists "/home/u/.vst3" = Outcome.returned false ∧
      lockedFs.pathExists "/usr/lib/vst3" = Outcome.returned true ∧
      lockedFs.pathExists "/usr/local/lib/vst3" = Outcome.returned true ∧
      (ScanPlugins (linuxEnv false lockedFs) HostState.init).2 = Outcome.filesystem_error ∧
      (ScanPlugins (linuxEnv true lockedFs) HostState.init).2 =
        Outcome.returned
          [{ path := "/usr/local/lib/vst3/Reverb.vst3", name := "Reverb", vendor := "Unknown",
             uid := "/usr/local/lib/vst3/Reverb.vst3", isInstrument := false,
             isEffect := true }] ∧
      guardedFs.pathExists "/home/u/.vst3" = Outcome.filesystem_error ∧
      guardedFs.pathExists "/usr/local/lib/vst3" = Outcome.returned true ∧
      (ScanPlugins (linuxEnv false guardedFs) HostState.init).2 = Outcome.filesystem_error ∧
      (ScanPlugins (linuxEnv true guardedFs) HostState.init).2 =
        Outcome.filesystem_error := by
  decide

/-- Counterexample to C5: with `/plugins` listed twice, and with `/plugins`
listed together with its subdirectory `/plugins/sub`, the scan returns two
descriptors for the same bundle path. -/
theorem scan_repeats_bundle_reached_twice :
    VST3Scanner.scan Platform.linux reverbFs ["/plugins", "/plugins"] =
        Outcome.returned
          [{ path := "/plugins/Reverb.vst3", name := "Reverb", vendor := "Unknown",
             uid := "/plugins/Reverb.vst3", isInstrument := false, isEffect := true },
           { path := "/plugins/Reverb.vst3", name := "Reverb", vendor := "Unknown",
             uid := "/plugins/Reverb.vst3", isInstrument := false, isEffect := true }] ∧
      ¬ (["/plugins/Reverb.vst3", "/plugins/Reverb.vst3"] : List String).Nodup ∧
      VST3Scanner.scan Platform.linux nestedFs ["/plugins", "/plugins/sub"] =
        Outcome.returned
          [{ path := "/plugins/sub/Reverb.vst3", name := "Reverb", vendor := "Unknown",
             uid := "/plugins/sub/Reverb.vst3", isInstrument := false, isEffect := true },
           { path := "/plugins/sub/Reverb.vst3", name := "Reverb", vendor := "Unknown",
             uid := "/plugins/sub/Reverb.vst3", isInstrument := false, isEffect := true }] := by
  decide

/-- C5, as amended: the scan does not deduplicate. On every platform and
filesystem, the scan of two lists of search paths one after the other is the
scan of the first followed by the scan of the second: the descriptors of the
first followed by the descriptors of the second when both return, and the
exception when either ends in one. A search path listed twice so contributes
each of its bundles twice. -/
theorem scan_concatenates_search_paths (platform : Platform) (fs : FileSystem)
    (ps qs : List String) (p : String) :
    VST3Scanner.scan platform fs (ps ++ qs) =
        appendOutcomes (VST3Scanner.scan platform fs ps) (VST3Scanner.scan platform fs qs) ∧
      VST3Scanner.scan platform fs [p, p] =
        appendOutcomes (VST3Scanner.scan platform fs [p]) (VST3Scanner.scan platform fs [p]) :=
  ⟨scanLoop_append platform fs ps qs [], scanLoop_append platform fs [p] [p] []⟩

/-! ## Loading -/

/-- Counterexample to C6: no bundle exists at `/missing/Nothing.vst3` in
`reverbFs`, yet the processor's `load` of that path returns `true`, and
`loadPlugin` of it from the initial state returns the handle `vst3-1` and
registers an instance under it, with the SDK and without. -/
theorem loadPlugin_of_missing_bundle_succeeds :
    reverbFs.pathExists "/missing/Nothing.vst3" = Outcome.returned false ∧
      (VST3Processor.load VST3Processor.ctor "/missing/Nothing.vst3").2 = true ∧
      (LoadPlugin true Platform.linux HostState.init (some "/missing/Nothing.vst3")).2 =
        Except.ok "vst3-1" ∧
      (LoadPlugin true Platform.linux HostState.init
          (some "/missing/Nothing.vst3")).1.loadedPlugins.keys = ["vst3-1"] ∧
      (LoadPlugin false Platform.linux HostState.init (some "/missing/Nothing.vst3")).2 =
        Except.ok "vst3-1" ∧
      (LoadPlugin false Platform.linux HostState.init
          (some "/missing/Nothing.vst3")).1.loadedPlugins.keys = ["vst3-1"] :=
  ⟨by decide, by decide, by rfl, by decide, by rfl, by decide⟩

/-- C6, as amended: `loadPlugin` fails only for a missing or non-string
argument, with a `TypeError` and the state left as it was. For every string
path, whether or not a bundle exists there, on every platform and in both
builds, the processor's `load` returns `true`, and `loadPlugin` returns the
handle made from the counter and registers under it an instance that records
the path. -/
theorem loadPlugin_fails_only_without_string (sdk : Bool) (platform : Platform)
    (s : HostState) (path : String) (p : VST3Processor) :
    (p.load path).2 = true ∧
      (LoadPlugin sdk platform s (some path)).2 =
        Except.ok ("vst3-" ++ to_string s.nextPluginId) ∧
      (∃ plugin,
        (LoadPlugin sdk platform s (some path)).1.loadedPlugins.find
            ("vst3-" ++ to_string s.nextPluginId) = some plugin ∧
          plugin.path = path) ∧
      LoadPlugin sdk platform s none =
        (s, Except.error (JsException.TypeError "Plugin path (string) required")) := by
  obtain ⟨plugin, -, hpath, -, -, hL⟩ := LoadPlugin_some sdk platform s path
  refine ⟨rfl, ?_, ⟨plugin, ?_, hpath⟩, rfl⟩
  · rw [hL]
    rfl
  · rw [hL]
    exact PluginMap.find_assign_self _ _ _

/-! ## Parameters and state -/

/-- C8: for every state and every live handle, `setState` with the string
`getState` has just returned leaves the state as it was, so `getParameters`
returns the same array after it as before. -/
theorem setState_of_getState_keeps_parameters (sdk : Bool) (s : HostState) (h : String)
    (_hlive : s.loadedPlugins.find h ≠ none) :
    GetParameters sdk (SetState sdk s h (GetState sdk s h)) h = GetParameters sdk s h ∧
      SetState sdk s h (GetState sdk s h) = s := by
  rw [SetState_state]
  exact ⟨rfl, rfl⟩

/-- Instance of C8, at the state after one `loadPlugin` with the SDK. -/
theorem setState_of_getState_keeps_parameters_witness :
    (LoadPlugin true Platform.linux HostState.init (some "/plugins/Reverb.vst3")).1.loadedPlugins.find
        "vst3-1" ≠ none ∧
      GetParameters true
        (SetState true (LoadPlugin true Platform.linux HostState.init (some "/plugins/Reverb.vst3")).1
          "vst3-1"
          (GetState true (LoadPlugin true Platform.linux HostState.init (some "/plugins/Reverb.vst3")).1
            "vst3-1"))
        "vst3-1" =
      GetParameters true (LoadPlugin true Platform.linux HostState.init (some "/plugins/Reverb.vst3")).1
        "vst3-1" :=
  ⟨by decide,
    (setState_of_getState_keeps_parameters true
      (LoadPlugin true Platform.linux HostState.init (some "/plugins/Reverb.vst3")).1 "vst3-1"
      (by decide)).1⟩

/-! ## Processing on a processor that is not loaded -/

/-- Counterexample to C9: on a processor that was loaded and then unloaded, and on a
freshly constructed one whose `loaded` flag is clear, `process` returns with
the buffer as given. -/
theorem process_after_unload_passes_through :
    ((VST3Processor.load VST3Processor.ctor "/plugins/Reverb.vst3").1.unload).loaded = false ∧
      ((VST3Processor.load VST3Processor.ctor "/plugins/Reverb.vst3").1.unload).process
          [1, -1, 1 / 2] =
        ((VST3Processor.load VST3Processor.ctor "/plugins/Reverb.vst3").1.unload,
          [1, -1, 1 / 2]) ∧
      VST3Processor.process
          { pluginPath := "", loaded := false, sampleRate := 0, blockSize := 0 }
          [1, -1, 1 / 2] =
        ({ pluginPath := "", loaded := false, sampleRate := 0, blockSize := 0 },
          [1, -1, 1 / 2]) :=
  ⟨by decide, by rfl, by rfl⟩

/-- C9, as amended: for every processor whose `loaded` flag is clear and every
buffer, `process` returns normally at once, leaving the buffer and the
processor as they were. -/
theorem process_when_not_loaded_returns_buffer (p : VST3Processor) (buffer : List Rat)
    (hnot : p.loaded = false) : p.process buffer = (p, buffer) := by
  simp only [VST3Processor.process, hnot, Bool.not_false, if_true]

/-- Instance of C9 as amended, at a processor that was loaded and then unloaded. -/
theorem process_when_not_loaded_returns_buffer_witness :
    ((VST3Processor.load VST3Processor.ctor "/plugins/Reverb.vst3").1.unload).loaded = false ∧
      ((VST3Processor.load VST3Processor.ctor "/plugins/Reverb.vst3").1.unload).process
          [1 / 4, 3] =
        ((VST3Processor.load VST3Processor.ctor "/plugins/Reverb.vst3").1.unload, [1 / 4, 3]) :=
  ⟨rfl, process_when_not_loaded_returns_buffer _ _ rfl⟩

/-! ## The registry invariant -/

theorem registered_init (sdk : Bool) : Registered sdk HostState.init := by
  refine ⟨List.nodup_nil, ?_⟩
  intro e he
  cases he

theorem registered_step (env : Env) (s : HostState) (c : Call)
    (h : Registered env.sdk s) : Registered env.sdk (step env s c).1 := by
  by_cases hload : ∃ arg, c = Call.loadPlugin arg
  · obtain ⟨arg, rfl⟩ := hload
    cases arg with
    | none => exact h
    | some path =>
      obtain ⟨plugin, huid, -, hsdk, hloaded, hL⟩ := LoadPlugin_some env.sdk env.platform s path
      simp only [step, hL]
      refine ⟨PluginMap.nodup_keys_assign _ _ h.1, ?_⟩
      intro e he
      rcases PluginMap.mem_assign he with h1 | h1
      · exact h.2 e h1
      · subst h1
        exact ⟨huid, hsdk, hloaded⟩
  · by_cases hunload : ∃ id, c = Call.unloadPlugin id
    · obtain ⟨id, rfl⟩ := hunload
      refine ⟨PluginMap.nodup_keys_erase _ h.1, ?_⟩
      intro e he
      exact h.2 e (PluginMap.mem_erase he).1
    · have hq := step_state_of_query env s c
        (fun arg hc => hload ⟨arg, hc⟩) (fun id hc => hunload ⟨id, hc⟩)
      unfold Registered
      rw [hq.1]
      exact h

theorem registered_run (env : Env) (calls : List Call) (s : HostState)
    (h : Registered env.sdk s) : Registered env.sdk (run env s calls) := by
  induction calls generalizing s with
  | nil => exact h
  | cons c rest ih => exact ih _ (registered_step env s c h)

theorem mem_unique_of_nodup_keys {m : PluginMap} (hm : m.keys.Nodup) {k : String}
    {v w : LoadedPlugin} (hv : (k, v) ∈ m) (hw : (k, w) ∈ m) : v = w := by
  induction m with
  | nil => cases hv
  | cons x rest ih =>
    obtain ⟨k2, u⟩ := x
    simp only [PluginMap.keys, List.map_cons, List.nodup_cons] at hm
    have hkey : ∀ {z : LoadedPlugin}, (k, z) ∈ rest → k ∈ List.map Prod.fst rest :=
      fun hz => List.mem_map.mpr ⟨_, hz, rfl⟩
    simp only [List.mem_cons, Prod.mk.injEq] at hv hw
    rcases hv with ⟨hk, rfl⟩ | hv
    · rcases hw with ⟨-, rfl⟩ | hw
      · rfl
      · exact absurd (hk ▸ hkey hw) hm.1
    · rcases hw with ⟨hk, rfl⟩ | hw
      · exact absurd (hk ▸ hkey hv) hm.1
      · exact ih hm.2 hv hw

/-- C10: in every state reached from the initial state by a sequence of
calls, a handle found in the instance table maps to exactly one instance;
that instance records the handle, its processor (which it always has with
the SDK) has its `loaded` flag set, and so no instance with an unloaded
processor is in the table. -/
theorem registered_instances_are_loaded (env : Env) (calls : List Call) (h : String)
    (plugin : LoadedPlugin)
    (hfound : (run env HostState.init calls).loadedPlugins.find h = some plugin) :
    (∀ other, (h, other) ∈ (run env HostState.init calls).loadedPlugins → other = plugin) ∧
      plugin.uid = h ∧
      (env.sdk = true → ∃ p, plugin.processor = some p ∧ p.loaded = true) ∧
      (∀ p, plugin.processor = some p → p.loaded = true) := by
  have hreg := registered_run env calls HostState.init (registered_init env.sdk)
  have hmem := PluginMap.find_some_mem hfound
  refine ⟨?_, hreg.2 _ hmem⟩
  intro other hother
  exact mem_unique_of_nodup_keys hreg.1 hother hmem

/-- Instance of C10, at the state after loading two plugins, unloading the first and
processing a buffer through the second, with the SDK. -/
theorem registered_instances_are_loaded_witness :
    (run (exampleEnv true) HostState.init
        [Call.loadPlugin (some "/plugins/Reverb.vst3"),
          Call.loadPlugin (some "/plugins/Delay.vst3"), Call.unloadPlugin "vst3-1",
          Call.processAudio "vst3-2" [0, 1]]).loadedPlugins.find "vst3-2" =
        some { uid := "vst3-2", path := "/plugins/Delay.vst3", name := "Delay",
               parameters := [],
               processor := some { pluginPath := "/plugins/Delay.vst3", loaded := true,
                                   sampleRate := 44100, blockSize := 512 } } ∧
      ∃ p, (some { pluginPath := "/plugins/Delay.vst3", loaded := true,
                   sampleRate := 44100, blockSize := 512 } : Option VST3Processor) = some p ∧
        p.loaded = true :=
  ⟨by decide,
    (registered_instances_are_loaded (exampleEnv true)
      [Call.loadPlugin (some "/plugins/Reverb.vst3"),
        Call.loadPlugin (some "/plugins/Delay.vst3"), Call.unloadPlugin "vst3-1",
        Call.processAudio "vst3-2" [0, 1]] "vst3-2"
      { uid := "vst3-2", path := "/plugins/Delay.vst3", name := "Delay",
        parameters := [],
        processor := some { pluginPath := "/plugins/Delay.vst3", loaded := true,
                            sampleRate := 44100, blockSize := 512 } }
      (by decide)).2.2.1 rfl⟩

end Rach
